import Mathlib

set_option linter.unusedVariables false

/-!
Shallow embedding of the Kibana–Elasticsearch association controller
(`operators/pkg/controller/association/association_controller.go`).

The controller reconciles an association record linking an Elasticsearch
cluster ("provider") and a Kibana instance ("consumer"): it registers two
dynamic watches, fetches the provider, two secrets and the consumer,
derives the desired embedded Elasticsearch backend configuration, updates
the consumer when the embedded configuration differs, persists the derived
status when it changed, and maps the status to a scheduling decision.

The external resource store is modelled as a `Store` value: one slot per
fetched object (present / absent / errored, mirroring the three outcomes of
the Go client `Get`), the two dynamic-watch registries, and fault-injection
flags for the write operations (`Update`, `Status().Update`, finalizer
bookkeeping) and the watch `AddHandler` calls.  Every function below is a
direct transcription of the corresponding Go function; collaborators not in
this package (secret naming, service URL, the dynamic-watch registry, the
finalizer handler) are modelled from the specification and marked as such.
-/

/-- A namespaced resource key (`types.NamespacedName`). -/
structure NamespacedName where
  ns : String
  name : String
deriving DecidableEq

/-- Errors returned by the resource store client: a not-found error for a
given key (recognised by `apierrors.IsNotFound`) or any other error,
carried as an opaque message. -/
inductive Err where
  | notFound (key : NamespacedName)
  | other (msg : String)
deriving DecidableEq

/-- Mirrors `apierrors.IsNotFound`. -/
def Err.isNotFound : Err → Bool
  | .notFound _ => true
  | .other _ => false

/-- State of one fetchable object in the external store: it exists, it does
not exist, or fetching it fails with a non-not-found error. -/
inductive ObjState (α : Type) where
  | present (a : α)
  | absent
  | errored (msg : String)
deriving DecidableEq

/-- Result of a client `Get` for the object at `key`. -/
def getObj {α : Type} (key : NamespacedName) : ObjState α → Except Err α
  | .present a => .ok a
  | .absent => .error (Err.notFound key)
  | .errored m => .error (Err.other m)

/-- Status constant `assoctype.AssociationPending`. -/
def AssociationPending : String := "Pending"

/-- Status constant `assoctype.AssociationEstablished`. -/
def AssociationEstablished : String := "Established"

/-- Status constant `assoctype.AssociationFailed`. -/
def AssociationFailed : String := "Failed"

/-- A secret: its object name and its string-keyed data map, modelled as an
association list. -/
structure Secret where
  name : String
  data : List (String × String)
deriving DecidableEq

/-- Lookup in a secret's data map. -/
def dataFind (d : List (String × String)) (k : String) : Option String :=
  (d.find? (fun p => p.1 == k)).map Prod.snd

/-- Go map indexing `m[k]` on secret data: a missing key yields the zero
value, which `string(...)` turns into the empty string. -/
def dataIndex (d : List (String × String)) (k : String) : String :=
  (dataFind d k).getD ""

/-- Inline authentication block of the Kibana Elasticsearch backend config
(`kbtype.ElasticsearchInlineAuth`). -/
structure ElasticsearchInlineAuth where
  username : String
  password : String
deriving DecidableEq

/-- Kibana's embedded Elasticsearch backend configuration
(`kbtype.BackendElasticsearch`): URL, optional inline auth (the Go struct
holds a nullable pointer), optional CA certificate secret name. -/
structure BackendElasticsearch where
  url : String
  authInline : Option ElasticsearchInlineAuth
  caCertSecret : Option String
deriving DecidableEq

/-- Kibana spec: only the embedded Elasticsearch backend configuration is
relevant to this controller. -/
structure KibanaSpec where
  elasticsearch : BackendElasticsearch
deriving DecidableEq

/-- A Kibana resource (`kbtype.Kibana`). -/
structure Kibana where
  spec : KibanaSpec
deriving DecidableEq

/-- An Elasticsearch cluster resource (`estype.ElasticsearchCluster`): the
controller only reads its namespace and name. -/
structure ElasticsearchCluster where
  ns : String
  name : String
deriving DecidableEq

/-- Modelled from the spec: secret-naming helper
`secret.ElasticInternalUsersSecretName` from the external
`elasticsearch/secret` package (out of scope, specified only at the
interface boundary): derives the internal-users secret name from the
cluster name. -/
def ElasticInternalUsersSecretName (esName : String) : String :=
  esName ++ "-internal-users"

/-- Modelled from the spec: the constant
`secret.InternalKibanaServerUserName` from the external
`elasticsearch/secret` package, the key of the Kibana server user in the
internal-users secret. -/
def InternalKibanaServerUserName : String := "kibana-server"

/-- Modelled from the spec: URL-construction helper
`services.ExternalServiceURL` from the external `elasticsearch/services`
package (out of scope): derives the provider connection endpoint from the
cluster. -/
def ExternalServiceURL (es : ElasticsearchCluster) : String :=
  "https://" ++ es.name ++ "-es." ++ es.ns ++ ".svc.cluster.local:9200"

/-- A named dynamic watch registration (`watches.NamedWatch`). -/
structure NamedWatch where
  name : String
  watched : NamespacedName
  watcher : NamespacedName
deriving DecidableEq

/-- Modelled from the spec: `DynamicWatches.AddHandler` is an idempotent
upsert keyed by the registration name — at most one active registration per
name, re-adding with the same name overwrites in place. -/
def addHandler (reg : List NamedWatch) (w : NamedWatch) : List NamedWatch :=
  w :: reg.filter (fun x => x.name != w.name)

/-- Modelled from the spec: `DynamicWatches.RemoveHandlerForKey` is an
idempotent delete by name, no error if absent. -/
def removeHandlerForKey (reg : List NamedWatch) (n : String) : List NamedWatch :=
  reg.filter (fun x => x.name != n)

/-- Find the registration with a given name, if any. -/
def lookupWatch (reg : List NamedWatch) (n : String) : Option NamedWatch :=
  reg.find? (fun x => x.name == n)

/-- The association spec: provider reference and consumer reference. -/
structure AssociationSpec where
  elasticsearch : NamespacedName
  kibana : NamespacedName
deriving DecidableEq

/-- The association record (`assoctype.KibanaElasticsearchAssociation`):
its own key, its spec, the stored status string, the paused annotation, the
deletion tombstone, and the finalizer names on its metadata. -/
structure Association where
  ns : String
  name : String
  spec : AssociationSpec
  status : String
  paused : Bool
  deleted : Bool
  finalizers : List String
deriving DecidableEq

/-- Mirrors `k8s.ExtractNamespacedName`. -/
def assocKey (a : Association) : NamespacedName :=
  ⟨a.ns, a.name⟩

/-- The world the controller operates on: one slot per fetched object, the
two dynamic-watch registries, and fault-injection flags for the fallible
operations (a `some msg` flag makes the operation fail with that error). -/
structure Store where
  association : ObjState Association
  es : ObjState ElasticsearchCluster
  internalUsersSecret : ObjState Secret
  caCertSecret : ObjState Secret
  kibana : ObjState Kibana
  esWatches : List NamedWatch
  kbWatches : List NamedWatch
  esWatchAddErr : Option String
  kbWatchAddErr : Option String
  kibanaUpdateErr : Option String
  statusUpdateErr : Option String
  finalizerWriteErr : Option String
deriving DecidableEq

/-- A scheduling decision (`reconcile.Result`), with the delay in seconds. -/
structure ReconcileResult where
  requeue : Bool
  requeueAfterSeconds : Nat
deriving DecidableEq

/-- The fixed retry decision `defaultRequeue = {Requeue: true, RequeueAfter: 10s}`. -/
def defaultRequeue : ReconcileResult :=
  ⟨true, 10⟩

/-- The zero value `reconcile.Result{}`. -/
def emptyResult : ReconcileResult :=
  ⟨false, 0⟩

/-- Modelled from the spec: `common.PauseRequeue`, the fixed scheduling
decision returned for administratively paused resources. -/
def PauseRequeue : ReconcileResult :=
  ⟨false, 0⟩

/-- Mirrors `elasticsearchWatchName`. -/
def elasticsearchWatchName (k : NamespacedName) : String :=
  k.ns ++ "-" ++ k.name ++ "-es-watch"

/-- Mirrors `kibanaWatchName`. -/
def kibanaWatchName (k : NamespacedName) : String :=
  k.ns ++ "-" ++ k.name ++ "-kb-watch"

/-- Mirrors `resultFromStatus`: the pure status reducer, including the
unreachable default branch of the Go switch. -/
def resultFromStatus (status : String) : ReconcileResult :=
  if status = AssociationPending then
    defaultRequeue
  else if status = AssociationEstablished ∨ status = AssociationFailed then
    emptyResult
  else
    emptyResult

/-- The desired consumer configuration derived in `reconcileInternal` lines
226–252: service URL, inline auth with the internal Kibana server user and
the password read from the internal-users secret by Go map indexing, and
the CA certificate secret name. -/
def expectedConfig (es : ElasticsearchCluster) (internalUsers caCert : Secret) :
    BackendElasticsearch :=
  ⟨ExternalServiceURL es,
   some ⟨InternalKibanaServerUserName, dataIndex internalUsers.data InternalKibanaServerUserName⟩,
   some caCert.name⟩

/-- Outcome of `reconcileInternal`: the store after its side effects, the
number of consumer `Update` calls issued, the computed status and the
returned error. -/
structure InternalOutcome where
  store : Store
  kibanaUpdateCalls : Nat
  status : String
  error : Option Err
deriving DecidableEq

/-- Transcription of `reconcileInternal`: upsert the two dynamic watches,
fetch the provider, the internal-users secret, the public CA certificate
secret and the consumer, derive the desired configuration, and update the
consumer when its embedded configuration differs. -/
def reconcileInternal (st : Store) (a : Association) : InternalOutcome :=
  let key := assocKey a
  match st.esWatchAddErr with
  | some m => ⟨st, 0, AssociationFailed, some (Err.other m)⟩
  | none =>
  let st1 := { st with
    esWatches := addHandler st.esWatches ⟨elasticsearchWatchName key, a.spec.elasticsearch, key⟩ }
  match st1.kbWatchAddErr with
  | some m => ⟨st1, 0, AssociationFailed, some (Err.other m)⟩
  | none =>
  let st2 := { st1 with
    kbWatches := addHandler st1.kbWatches ⟨kibanaWatchName key, a.spec.kibana, key⟩ }
  match getObj a.spec.elasticsearch st2.es with
  | .error e =>
      if e.isNotFound then ⟨st2, 0, AssociationPending, none⟩
      else ⟨st2, 0, AssociationFailed, some e⟩
  | .ok es =>
  let internalUsersSecretKey : NamespacedName := ⟨es.ns, ElasticInternalUsersSecretName es.name⟩
  match getObj internalUsersSecretKey st2.internalUsersSecret with
  | .error e =>
      if e.isNotFound then ⟨st2, 0, AssociationPending, some e⟩
      else ⟨st2, 0, AssociationFailed, some e⟩
  | .ok internalUsersSecret =>
  let publicCACertSecretKey : NamespacedName := ⟨es.ns, es.name⟩
  match getObj publicCACertSecretKey st2.caCertSecret with
  | .error e => ⟨st2, 0, AssociationPending, some e⟩
  | .ok publicCACertSecret =>
  let expectedEsConfig := expectedConfig es internalUsersSecret publicCACertSecret
  match getObj a.spec.kibana st2.kibana with
  | .error e =>
      if e.isNotFound then ⟨st2, 0, AssociationPending, some e⟩
      else ⟨st2, 0, AssociationFailed, some e⟩
  | .ok currentKb =>
  if currentKb.spec.elasticsearch = expectedEsConfig then
    ⟨st2, 0, AssociationEstablished, none⟩
  else
    match st2.kibanaUpdateErr with
    | some m => ⟨st2, 1, AssociationPending, some (Err.other m)⟩
    | none => ⟨{ st2 with kibana := .present ⟨⟨expectedEsConfig⟩⟩ },
               1, AssociationEstablished, none⟩

/-- Name of the watch-cleanup finalizer registered by `watchFinalizer`. -/
def watchFinalizerName : String := "dynamic-watches"

/-- The cleanup action of `watchFinalizer`: remove the Kibana watch and the
Elasticsearch watch registered for this association key. -/
def watchFinalizerExecute (key : NamespacedName) (st : Store) : Store :=
  { st with
    kbWatches := removeHandlerForKey st.kbWatches (kibanaWatchName key),
    esWatches := removeHandlerForKey st.esWatches (elasticsearchWatchName key) }

/-- Modelled from the spec: the external Finalizer Handler
(`finalizer.NewHandler(r).Handle`), specialised to the watch-cleanup
finalizer.  On a resource not marked for deletion it ensures the finalizer
name is recorded (a write to the association record, which may fail); on a
resource marked for deletion that still carries the name it executes the
cleanup action and clears the name; on a deleted resource that never
carried the name it is a no-op.  Returns the updated store, the updated
association and the error, if any. -/
def handleFinalizer (st : Store) (a : Association) : Store × Association × Option Err :=
  if a.deleted then
    if watchFinalizerName ∈ a.finalizers then
      let st1 := watchFinalizerExecute (assocKey a) st
      match st1.finalizerWriteErr with
      | some m => (st1, a, some (Err.other m))
      | none =>
        let a1 := { a with finalizers := a.finalizers.filter (fun n => n != watchFinalizerName) }
        ({ st1 with association := .present a1 }, a1, none)
    else
      (st, a, none)
  else
    if watchFinalizerName ∈ a.finalizers then
      (st, a, none)
    else
      match st.finalizerWriteErr with
      | some m => (st, a, some (Err.other m))
      | none =>
        let a1 := { a with finalizers := watchFinalizerName :: a.finalizers }
        ({ st with association := .present a1 }, a1, none)

/-- Outcome of one `Reconcile` invocation: the scheduling decision, the
returned error, the store after all side effects, the status computed by
the transition algorithm when it ran, and the number of consumer `Update`
and `Status().Update` calls issued. -/
structure ReconcileOutcome where
  result : ReconcileResult
  error : Option Err
  store : Store
  newStatus : Option String
  kibanaUpdateCalls : Nat
  statusUpdateCalls : Nat
deriving DecidableEq

/-- Transcription of `Reconcile`: fetch the association (not-found is a
clean no-op), short-circuit when paused, run the finalizer handler,
short-circuit when the deletion tombstone is set, run the transition
algorithm, persist the status only when it changed, and return the
scheduling decision derived from the new status together with the
transition error. -/
def reconcile (request : NamespacedName) (st : Store) : ReconcileOutcome :=
  match getObj request st.association with
  | .error e =>
      if e.isNotFound then ⟨emptyResult, none, st, none, 0, 0⟩
      else ⟨emptyResult, some e, st, none, 0, 0⟩
  | .ok association =>
  if association.paused then
    ⟨PauseRequeue, none, st, none, 0, 0⟩
  else
  match handleFinalizer st association with
  | (st1, _, some e) => ⟨defaultRequeue, some e, st1, none, 0, 0⟩
  | (st1, association1, none) =>
  if association1.deleted then
    ⟨emptyResult, none, st1, none, 0, 0⟩
  else
  let o := reconcileInternal st1 association1
  if o.status = association1.status then
    ⟨resultFromStatus o.status, o.error, o.store, some o.status, o.kibanaUpdateCalls, 0⟩
  else
    match o.store.statusUpdateErr with
    | some m =>
        ⟨defaultRequeue, some (Err.other m), o.store, some o.status, o.kibanaUpdateCalls, 1⟩
    | none =>
        let association2 := { association1 with status := o.status }
        ⟨resultFromStatus o.status, o.error,
         { o.store with association := .present association2 },
         some o.status, o.kibanaUpdateCalls, 1⟩

/-! Concrete fixtures used by witnesses and counterexamples. -/

/-- Provider reference of the sample association. -/
def sampleEsRef : NamespacedName := ⟨"ns", "es1"⟩

/-- Consumer reference of the sample association. -/
def sampleKbRef : NamespacedName := ⟨"ns", "kb1"⟩

/-- A live sample association with empty initial status and the watch
finalizer already registered. -/
def sampleAssociation : Association :=
  ⟨"ns", "assoc1", ⟨sampleEsRef, sampleKbRef⟩, "", false, false, [watchFinalizerName]⟩

/-- The request key of the sample association. -/
def sampleRequest : NamespacedName := ⟨"ns", "assoc1"⟩

/-- The sample provider cluster. -/
def sampleEs : ElasticsearchCluster := ⟨"ns", "es1"⟩

/-- The sample internal-users secret, holding a password for the Kibana
server user. -/
def sampleInternalUsers : Secret :=
  ⟨"es1-internal-users", [("kibana-server", "secretpw")]⟩

/-- The sample internal-users secret with the Kibana server user key
missing from its data. -/
def sampleInternalUsersNoKey : Secret := ⟨"es1-internal-users", []⟩

/-- The sample public CA certificate secret. -/
def sampleCaCert : Secret := ⟨"es1", []⟩

/-- A sample consumer with no embedded configuration yet. -/
def sampleKibana : Kibana := ⟨⟨⟨"", none, none⟩⟩⟩

/-- A sample consumer whose embedded configuration already equals the
derived desired configuration. -/
def sampleMatchingKibana : Kibana :=
  ⟨⟨expectedConfig sampleEs sampleInternalUsers sampleCaCert⟩⟩

/-- A sample consumer matching the desired configuration derived from the
internal-users secret that lacks the Kibana server user key. -/
def sampleMatchingKibanaNoKey : Kibana :=
  ⟨⟨expectedConfig sampleEs sampleInternalUsersNoKey sampleCaCert⟩⟩

/-- The fully healthy world: association, provider, both secrets and
consumer present, no fault injected. -/
def sampleStore : Store :=
  ⟨.present sampleAssociation, .present sampleEs, .present sampleInternalUsers,
   .present sampleCaCert, .present sampleKibana, [], [], none, none, none, none, none⟩

/-- A world in which the public CA certificate secret fetch fails with a
non-not-found error. -/
def caErrorStore : Store :=
  { sampleStore with caCertSecret := ObjState.errored "transient-api-error" }

/-- A world in which the internal-users secret does not exist. -/
def internalUsersAbsentStore : Store :=
  { sampleStore with internalUsersSecret := ObjState.absent }

/-- A healthy world whose consumer already embeds the desired configuration. -/
def matchingStore : Store :=
  { sampleStore with kibana := ObjState.present sampleMatchingKibana }

/-- A healthy world whose internal-users secret lacks the Kibana server
user key and whose consumer already matches the resulting configuration
with an empty password. -/
def missingKeyStore : Store :=
  { sampleStore with
      internalUsersSecret := ObjState.present sampleInternalUsersNoKey,
      kibana := ObjState.present sampleMatchingKibanaNoKey }

/-- A world in which the transition algorithm errors (internal-users secret
missing) and the status persistence also fails. -/
def errorDropStore : Store :=
  { sampleStore with
      internalUsersSecret := ObjState.absent,
      statusUpdateErr := some "status-write-refused" }

/-! Helper lemmas. -/

/-- The status-transition algorithm only writes the consumer slot and the
watch registries: every other store field is preserved. -/
theorem reconcileInternal_preserves (st : Store) (a : Association) :
    (reconcileInternal st a).store.association = st.association ∧
    (reconcileInternal st a).store.es = st.es ∧
    (reconcileInternal st a).store.internalUsersSecret = st.internalUsersSecret ∧
    (reconcileInternal st a).store.caCertSecret = st.caCertSecret ∧
    (reconcileInternal st a).store.esWatchAddErr = st.esWatchAddErr ∧
    (reconcileInternal st a).store.kbWatchAddErr = st.kbWatchAddErr ∧
    (reconcileInternal st a).store.kibanaUpdateErr = st.kibanaUpdateErr ∧
    (reconcileInternal st a).store.statusUpdateErr = st.statusUpdateErr ∧
    (reconcileInternal st a).store.finalizerWriteErr = st.finalizerWriteErr := by
  obtain ⟨assoc, es, ius, ca, kb, esW, kbW, esAE, kbAE, kuE, suE, fwE⟩ := st
  rcases esAE with _ | mE <;> rcases kbAE with _ | mK <;>
    rcases es with esv | _ | em <;> rcases ius with iv | _ | im <;>
    rcases ca with cv | _ | cm <;> rcases kb with kv | _ | km <;>
    rcases kuE with _ | ku <;>
    simp [reconcileInternal, getObj, Err.isNotFound] <;>
    split <;> simp

/-- The status-transition algorithm does not touch the stored association. -/
theorem reconcileInternal_preserves_association (st : Store) (a : Association) :
    (reconcileInternal st a).store.association = st.association :=
  (reconcileInternal_preserves st a).1

/-- The status-transition algorithm does not touch the status-write fault flag. -/
theorem reconcileInternal_preserves_statusUpdateErr (st : Store) (a : Association) :
    (reconcileInternal st a).store.statusUpdateErr = st.statusUpdateErr :=
  (reconcileInternal_preserves st a).2.2.2.2.2.2.2.1

/-- C7: the status reducer is a pure function mapping `Pending` to a
decision with requeue enabled after exactly 10 seconds, and mapping both
`Established` and `Failed` to a decision with no requeue. -/
theorem resultFromStatus_requeue_table :
    resultFromStatus AssociationPending = ⟨true, 10⟩ ∧
    (resultFromStatus AssociationEstablished).requeue = false ∧
    (resultFromStatus AssociationFailed).requeue = false ∧
    resultFromStatus AssociationPending = defaultRequeue := by
  refine ⟨?_, ?_, ?_, ?_⟩ <;> rfl

/-- C10: the status-transition algorithm always returns one of exactly the
three statuses `Pending`, `Established` or `Failed`; in particular it never
returns the empty initial status value, so the default branch of the
status reducer is unreachable for any status it produces. -/
theorem reconcileInternal_status_total (st : Store) (a : Association) :
    ((reconcileInternal st a).status = AssociationPending ∨
     (reconcileInternal st a).status = AssociationEstablished ∨
     (reconcileInternal st a).status = AssociationFailed) ∧
    (reconcileInternal st a).status ≠ "" := by
  obtain ⟨assoc, es, ius, ca, kb, esW, kbW, esAE, kbAE, kuE, suE, fwE⟩ := st
  rcases esAE with _ | mE <;> rcases kbAE with _ | mK <;>
    rcases es with esv | _ | em <;> rcases ius with iv | _ | im <;>
    rcases ca with cv | _ | cm <;> rcases kb with kv | _ | km <;>
    rcases kuE with _ | ku <;>
    simp [reconcileInternal, getObj, Err.isNotFound,
          AssociationPending, AssociationEstablished, AssociationFailed] <;>
    split <;> simp

/-- C6: when both watch registrations succeed, a not-found on the provider
fetch yields status `Pending` with no error and a scheduling decision that
requeues after the fixed 10-second delay; any other provider fetch error
yields status `Failed` with the error propagated. -/
theorem provider_fetch_status (st : Store) (a : Association)
    (h1 : st.esWatchAddErr = none) (h2 : st.kbWatchAddErr = none) :
    (st.es = ObjState.absent →
      (reconcileInternal st a).status = AssociationPending ∧
      (reconcileInternal st a).error = none ∧
      resultFromStatus (reconcileInternal st a).status = defaultRequeue ∧
      defaultRequeue = ⟨true, 10⟩) ∧
    (∀ m, st.es = ObjState.errored m →
      (reconcileInternal st a).status = AssociationFailed ∧
      (reconcileInternal st a).error = some (Err.other m)) := by
  constructor
  · intro hes
    simp [reconcileInternal, getObj, Err.isNotFound, h1, h2, hes, resultFromStatus,
          AssociationPending, AssociationEstablished, AssociationFailed, defaultRequeue]
  · intro m hes
    simp [reconcileInternal, getObj, Err.isNotFound, h1, h2, hes]

/-- Witness for C6: the healthy world with the provider absent. -/
theorem provider_fetch_status_witness :
    ({ sampleStore with es := ObjState.absent }.es = ObjState.absent →
      (reconcileInternal { sampleStore with es := ObjState.absent } sampleAssociation).status =
        AssociationPending ∧
      (reconcileInternal { sampleStore with es := ObjState.absent } sampleAssociation).error = none ∧
      resultFromStatus
          (reconcileInternal { sampleStore with es := ObjState.absent } sampleAssociation).status =
        defaultRequeue ∧
      defaultRequeue = ⟨true, 10⟩) ∧
    (∀ m, { sampleStore with es := ObjState.absent }.es = ObjState.errored m →
      (reconcileInternal { sampleStore with es := ObjState.absent } sampleAssociation).status =
        AssociationFailed ∧
      (reconcileInternal { sampleStore with es := ObjState.absent } sampleAssociation).error =
        some (Err.other m)) :=
  provider_fetch_status { sampleStore with es := ObjState.absent } sampleAssociation rfl rfl

/-- Counterexample for C1: a non-not-found error on the public CA
certificate secret fetch yields status `Pending`, not `Failed` as the
claim requires for any non-not-found fetch error on trust material. -/
theorem ca_secret_error_not_failed :
    (reconcileInternal caErrorStore sampleAssociation).status = AssociationPending ∧
    (reconcileInternal caErrorStore sampleAssociation).error =
      some (Err.other "transient-api-error") ∧
    AssociationPending ≠ AssociationFailed := by
  refine ⟨rfl, rfl, by decide⟩

/-- C1 (amended): when both watch registrations succeed and the provider is
present, a not-found on the internal-users secret yields `Pending` with the
error propagated and any other error on it yields `Failed` with the error
propagated; on the public CA certificate secret, however, every fetch error
(not-found or not) yields `Pending` with the error propagated. -/
theorem secret_fetch_status (st : Store) (a : Association) (esv : ElasticsearchCluster)
    (h1 : st.esWatchAddErr = none) (h2 : st.kbWatchAddErr = none)
    (hes : st.es = ObjState.present esv) :
    (st.internalUsersSecret = ObjState.absent →
      (reconcileInternal st a).status = AssociationPending ∧
      (reconcileInternal st a).error =
        some (Err.notFound ⟨esv.ns, ElasticInternalUsersSecretName esv.name⟩)) ∧
    (∀ m, st.internalUsersSecret = ObjState.errored m →
      (reconcileInternal st a).status = AssociationFailed ∧
      (reconcileInternal st a).error = some (Err.other m)) ∧
    (∀ s, st.internalUsersSecret = ObjState.present s →
      (st.caCertSecret = ObjState.absent →
        (reconcileInternal st a).status = AssociationPending ∧
        (reconcileInternal st a).error = some (Err.notFound ⟨esv.ns, esv.name⟩)) ∧
      (∀ m, st.caCertSecret = ObjState.errored m →
        (reconcileInternal st a).status = AssociationPending ∧
        (reconcileInternal st a).error = some (Err.other m))) := by
  refine ⟨?_, ?_, ?_⟩
  · intro hi
    simp [reconcileInternal, getObj, Err.isNotFound, h1, h2, hes, hi]
  · intro m hi
    simp [reconcileInternal, getObj, Err.isNotFound, h1, h2, hes, hi]
  · intro s hi
    constructor
    · intro hc
      simp [reconcileInternal, getObj, Err.isNotFound, h1, h2, hes, hi, hc]
    · intro m hc
      simp [reconcileInternal, getObj, Err.isNotFound, h1, h2, hes, hi, hc]

/-- Witness for C1 (amended): the healthy world with the internal-users
secret absent. -/
theorem secret_fetch_status_witness :
    (internalUsersAbsentStore.internalUsersSecret = ObjState.absent →
      (reconcileInternal internalUsersAbsentStore sampleAssociation).status =
        AssociationPending ∧
      (reconcileInternal internalUsersAbsentStore sampleAssociation).error =
        some (Err.notFound ⟨sampleEs.ns, ElasticInternalUsersSecretName sampleEs.name⟩)) ∧
    (∀ m, internalUsersAbsentStore.internalUsersSecret = ObjState.errored m →
      (reconcileInternal internalUsersAbsentStore sampleAssociation).status =
        AssociationFailed ∧
      (reconcileInternal internalUsersAbsentStore sampleAssociation).error =
        some (Err.other m)) ∧
    (∀ s, internalUsersAbsentStore.internalUsersSecret = ObjState.present s →
      (internalUsersAbsentStore.caCertSecret = ObjState.absent →
        (reconcileInternal internalUsersAbsentStore sampleAssociation).status =
          AssociationPending ∧
        (reconcileInternal internalUsersAbsentStore sampleAssociation).error =
          some (Err.notFound ⟨sampleEs.ns, sampleEs.name⟩)) ∧
      (∀ m, internalUsersAbsentStore.caCertSecret = ObjState.errored m →
        (reconcileInternal internalUsersAbsentStore sampleAssociation).status =
          AssociationPending ∧
        (reconcileInternal internalUsersAbsentStore sampleAssociation).error =
          some (Err.other m))) :=
  secret_fetch_status internalUsersAbsentStore sampleAssociation sampleEs rfl rfl rfl

/-- C4: when the watch registrations succeed and provider, both secrets and
consumer are all fetched successfully, and the consumer's embedded
configuration structurally equals the derived desired configuration, the
status is `Established` with no error, no consumer update call is issued
and the consumer slot of the store is left unchanged. -/
theorem noop_write_suppression (st : Store) (a : Association)
    (esv : ElasticsearchCluster) (iv cv : Secret) (kv : Kibana)
    (h1 : st.esWatchAddErr = none) (h2 : st.kbWatchAddErr = none)
    (hes : st.es = ObjState.present esv)
    (hi : st.internalUsersSecret = ObjState.present iv)
    (hc : st.caCertSecret = ObjState.present cv)
    (hk : st.kibana = ObjState.present kv)
    (heq : kv.spec.elasticsearch = expectedConfig esv iv cv) :
    (reconcileInternal st a).status = AssociationEstablished ∧
    (reconcileInternal st a).error = none ∧
    (reconcileInternal st a).kibanaUpdateCalls = 0 ∧
    (reconcileInternal st a).store.kibana = st.kibana := by
  simp [reconcileInternal, getObj, Err.isNotFound, h1, h2, hes, hi, hc, hk, heq]

/-- Witness for C4: the healthy world with a consumer already holding the
desired configuration. -/
theorem noop_write_suppression_witness :
    (reconcileInternal matchingStore sampleAssociation).status = AssociationEstablished ∧
    (reconcileInternal matchingStore sampleAssociation).error = none ∧
    (reconcileInternal matchingStore sampleAssociation).kibanaUpdateCalls = 0 ∧
    (reconcileInternal matchingStore sampleAssociation).store.kibana = matchingStore.kibana :=
  noop_write_suppression matchingStore sampleAssociation sampleEs sampleInternalUsers
    sampleCaCert sampleMatchingKibana rfl rfl rfl rfl rfl rfl rfl

/-- C9: when the internal-users secret exists but lacks the Kibana server
user key, the derived desired configuration embeds an empty-string password
with no error raised; the reconcile can still finish with status
`Established` — either because the consumer already matches, or by writing
the empty credential into the consumer. -/
theorem missing_user_key_empty_password (st : Store) (a : Association)
    (esv : ElasticsearchCluster) (iv cv : Secret) (kv : Kibana)
    (h1 : st.esWatchAddErr = none) (h2 : st.kbWatchAddErr = none)
    (hes : st.es = ObjState.present esv)
    (hi : st.internalUsersSecret = ObjState.present iv)
    (hc : st.caCertSecret = ObjState.present cv)
    (hk : st.kibana = ObjState.present kv)
    (hkey : dataFind iv.data InternalKibanaServerUserName = none) :
    (expectedConfig esv iv cv).authInline = some ⟨InternalKibanaServerUserName, ""⟩ ∧
    (kv.spec.elasticsearch = expectedConfig esv iv cv →
      (reconcileInternal st a).status = AssociationEstablished ∧
      (reconcileInternal st a).error = none) ∧
    (kv.spec.elasticsearch ≠ expectedConfig esv iv cv → st.kibanaUpdateErr = none →
      (reconcileInternal st a).status = AssociationEstablished ∧
      (reconcileInternal st a).error = none ∧
      (reconcileInternal st a).store.kibana =
        ObjState.present ⟨⟨expectedConfig esv iv cv⟩⟩) := by
  refine ⟨?_, ?_, ?_⟩
  · simp [expectedConfig, dataIndex, hkey]
  · intro heq
    simp [reconcileInternal, getObj, Err.isNotFound, h1, h2, hes, hi, hc, hk, heq]
  · intro hne hu
    simp [reconcileInternal, getObj, Err.isNotFound, h1, h2, hes, hi, hc, hk, hne, hu]

/-- Witness for C9: the empty password is embedded and the reconcile ends
`Established` with no error. -/
theorem missing_user_key_empty_password_witness :
    (expectedConfig sampleEs sampleInternalUsersNoKey sampleCaCert).authInline =
      some ⟨InternalKibanaServerUserName, ""⟩ ∧
    (sampleMatchingKibanaNoKey.spec.elasticsearch =
        expectedConfig sampleEs sampleInternalUsersNoKey sampleCaCert →
      (reconcileInternal missingKeyStore sampleAssociation).status = AssociationEstablished ∧
      (reconcileInternal missingKeyStore sampleAssociation).error = none) ∧
    (sampleMatchingKibanaNoKey.spec.elasticsearch ≠
        expectedConfig sampleEs sampleInternalUsersNoKey sampleCaCert →
      missingKeyStore.kibanaUpdateErr = none →
      (reconcileInternal missingKeyStore sampleAssociation).status = AssociationEstablished ∧
      (reconcileInternal missingKeyStore sampleAssociation).error = none ∧
      (reconcileInternal missingKeyStore sampleAssociation).store.kibana =
        ObjState.present ⟨⟨expectedConfig sampleEs sampleInternalUsersNoKey sampleCaCert⟩⟩) :=
  missing_user_key_empty_password missingKeyStore sampleAssociation sampleEs
    sampleInternalUsersNoKey sampleCaCert sampleMatchingKibanaNoKey rfl rfl rfl rfl rfl rfl rfl

theorem find?_filter_of_imp {α : Type} (p q : α → Bool) (l : List α)
    (h : ∀ x, p x = true → q x = true) :
    List.find? p (l.filter q) = List.find? p l := by
  induction l with
  | nil => rfl
  | cons x xs ih =>
      by_cases hq : q x = true
      · by_cases hp : p x = true <;>
          simp [List.filter_cons, hq, List.find?_cons, hp, ih]
      · have hp : p x = false := by
          cases hpx : p x
          · rfl
          · exact absurd (h x hpx) hq
        simp [List.filter_cons, hq, List.find?_cons, hp, ih]

/-- Upserting a registration makes it retrievable under its name. -/
theorem lookupWatch_addHandler_self (reg : List NamedWatch) (w : NamedWatch) :
    lookupWatch (addHandler reg w) w.name = some w := by
  simp [lookupWatch, addHandler]

/-- Upserting a registration leaves every other name unchanged. -/
theorem lookupWatch_addHandler_other (reg : List NamedWatch) (w : NamedWatch)
    (n : String) (h : n ≠ w.name) :
    lookupWatch (addHandler reg w) n = lookupWatch reg n := by
  have hbn : (w.name == n) = false := by
    simp [Ne.symm h]
  simp only [lookupWatch, addHandler, List.find?_cons, hbn]
  exact find?_filter_of_imp _ _ reg (by
    intro x hx
    simp only [beq_iff_eq] at hx
    simp [hx, bne, h])

/-- Removing a name makes lookup under that name fail. -/
theorem lookupWatch_remove_self (reg : List NamedWatch) (n : String) :
    lookupWatch (removeHandlerForKey reg n) n = none := by
  simp only [lookupWatch, removeHandlerForKey]
  rw [List.find?_eq_none]
  intro x hx
  rw [List.mem_filter] at hx
  simpa using hx.2

/-- Removing a name leaves every other name unchanged. -/
theorem lookupWatch_remove_other (reg : List NamedWatch) (n n' : String)
    (h : n' ≠ n) :
    lookupWatch (removeHandlerForKey reg n) n' = lookupWatch reg n' := by
  simp only [lookupWatch, removeHandlerForKey]
  exact find?_filter_of_imp _ _ reg (by
    intro x hx
    simp only [beq_iff_eq] at hx
    simp [hx, bne, h])

/-- The provider and consumer watch names of one association differ: the
kind markers are distinct. -/
theorem watch_names_distinct (k : NamespacedName) :
    elasticsearchWatchName k ≠ kibanaWatchName k := by
  intro h
  have hd : (elasticsearchWatchName k).data = (kibanaWatchName k).data :=
    congrArg String.data h
  simp only [elasticsearchWatchName, kibanaWatchName, String.data_append] at hd
  have := List.append_cancel_left hd
  simp at this

theorem reconcileInternal_watches (st : Store) (a : Association)
    (h1 : st.esWatchAddErr = none) (h2 : st.kbWatchAddErr = none) :
    (reconcileInternal st a).store.esWatches =
      addHandler st.esWatches
        ⟨elasticsearchWatchName (assocKey a), a.spec.elasticsearch, assocKey a⟩ ∧
    (reconcileInternal st a).store.kbWatches =
      addHandler st.kbWatches
        ⟨kibanaWatchName (assocKey a), a.spec.kibana, assocKey a⟩ := by
  obtain ⟨assoc, es, ius, ca, kb, esW, kbW, esAE, kbAE, kuE, suE, fwE⟩ := st
  dsimp only at h1 h2
  subst h1; subst h2
  rcases es with esv | _ | em <;> rcases ius with iv | _ | im <;>
    rcases ca with cv | _ | cm <;> rcases kb with kv | _ | km <;>
    rcases kuE with _ | ku <;>
    simp [reconcileInternal, getObj, Err.isNotFound] <;>
    split <;> simp

/-- C8: when the watch registrations succeed, a reconcile of a live
association upserts exactly two watch registrations — one for the provider
in the Elasticsearch registry and one for the consumer in the Kibana
registry — whose names follow `{namespace}-{name}-{kind}-watch` with
distinct kind markers, leaving every other name untouched; the finalizer
cleanup action removes exactly those two registrations by the same names. -/
theorem watch_lifecycle (st : Store) (a : Association)
    (h1 : st.esWatchAddErr = none) (h2 : st.kbWatchAddErr = none) :
    elasticsearchWatchName (assocKey a) =
      (assocKey a).ns ++ "-" ++ (assocKey a).name ++ "-es-watch" ∧
    kibanaWatchName (assocKey a) =
      (assocKey a).ns ++ "-" ++ (assocKey a).name ++ "-kb-watch" ∧
    elasticsearchWatchName (assocKey a) ≠ kibanaWatchName (assocKey a) ∧
    lookupWatch (reconcileInternal st a).store.esWatches (elasticsearchWatchName (assocKey a)) =
      some ⟨elasticsearchWatchName (assocKey a), a.spec.elasticsearch, assocKey a⟩ ∧
    lookupWatch (reconcileInternal st a).store.kbWatches (kibanaWatchName (assocKey a)) =
      some ⟨kibanaWatchName (assocKey a), a.spec.kibana, assocKey a⟩ ∧
    (∀ n, n ≠ elasticsearchWatchName (assocKey a) →
      lookupWatch (reconcileInternal st a).store.esWatches n = lookupWatch st.esWatches n) ∧
    (∀ n, n ≠ kibanaWatchName (assocKey a) →
      lookupWatch (reconcileInternal st a).store.kbWatches n = lookupWatch st.kbWatches n) ∧
    (∀ w : Store,
      lookupWatch (watchFinalizerExecute (assocKey a) w).esWatches
          (elasticsearchWatchName (assocKey a)) = none ∧
      lookupWatch (watchFinalizerExecute (assocKey a) w).kbWatches
          (kibanaWatchName (assocKey a)) = none ∧
      (∀ n, n ≠ elasticsearchWatchName (assocKey a) →
        lookupWatch (watchFinalizerExecute (assocKey a) w).esWatches n =
          lookupWatch w.esWatches n) ∧
      (∀ n, n ≠ kibanaWatchName (assocKey a) →
        lookupWatch (watchFinalizerExecute (assocKey a) w).kbWatches n =
          lookupWatch w.kbWatches n)) := by
  obtain ⟨hes, hkb⟩ := reconcileInternal_watches st a h1 h2
  refine ⟨rfl, rfl, watch_names_distinct _, ?_, ?_, ?_, ?_, ?_⟩
  · rw [hes]; exact lookupWatch_addHandler_self _ _
  · rw [hkb]; exact lookupWatch_addHandler_self _ _
  · intro n hn; rw [hes]; exact lookupWatch_addHandler_other _ _ _ hn
  · intro n hn; rw [hkb]; exact lookupWatch_addHandler_other _ _ _ hn
  · intro w
    exact ⟨lookupWatch_remove_self _ _, lookupWatch_remove_self _ _,
           fun n hn => lookupWatch_remove_other _ _ _ hn,
           fun n hn => lookupWatch_remove_other _ _ _ hn⟩

/-- Witness for C8: the healthy world registers both watches for the
sample association and the cleanup removes them by name. -/
theorem watch_lifecycle_witness :
    elasticsearchWatchName (assocKey sampleAssociation) =
      (assocKey sampleAssociation).ns ++ "-" ++ (assocKey sampleAssociation).name ++ "-es-watch" ∧
    kibanaWatchName (assocKey sampleAssociation) =
      (assocKey sampleAssociation).ns ++ "-" ++ (assocKey sampleAssociation).name ++ "-kb-watch" ∧
    elasticsearchWatchName (assocKey sampleAssociation) ≠
      kibanaWatchName (assocKey sampleAssociation) ∧
    lookupWatch (reconcileInternal sampleStore sampleAssociation).store.esWatches
        (elasticsearchWatchName (assocKey sampleAssociation)) =
      some ⟨elasticsearchWatchName (assocKey sampleAssociation),
            sampleAssociation.spec.elasticsearch, assocKey sampleAssociation⟩ ∧
    lookupWatch (reconcileInternal sampleStore sampleAssociation).store.kbWatches
        (kibanaWatchName (assocKey sampleAssociation)) =
      some ⟨kibanaWatchName (assocKey sampleAssociation),
            sampleAssociation.spec.kibana, assocKey sampleAssociation⟩ ∧
    (∀ n, n ≠ elasticsearchWatchName (assocKey sampleAssociation) →
      lookupWatch (reconcileInternal sampleStore sampleAssociation).store.esWatches n =
        lookupWatch sampleStore.esWatches n) ∧
    (∀ n, n ≠ kibanaWatchName (assocKey sampleAssociation) →
      lookupWatch (reconcileInternal sampleStore sampleAssociation).store.kbWatches n =
        lookupWatch sampleStore.kbWatches n) ∧
    (∀ w : Store,
      lookupWatch (watchFinalizerExecute (assocKey sampleAssociation) w).esWatches
          (elasticsearchWatchName (assocKey sampleAssociation)) = none ∧
      lookupWatch (watchFinalizerExecute (assocKey sampleAssociation) w).kbWatches
          (kibanaWatchName (assocKey sampleAssociation)) = none ∧
      (∀ n, n ≠ elasticsearchWatchName (assocKey sampleAssociation) →
        lookupWatch (watchFinalizerExecute (assocKey sampleAssociation) w).esWatches n =
          lookupWatch w.esWatches n) ∧
      (∀ n, n ≠ kibanaWatchName (assocKey sampleAssociation) →
        lookupWatch (watchFinalizerExecute (assocKey sampleAssociation) w).kbWatches n =
          lookupWatch w.kbWatches n)) :=
  watch_lifecycle sampleStore sampleAssociation rfl rfl

/-- C5: for a live association (fetched, not paused, finalizer handling
succeeded, no deletion tombstone) the status update is attempted if and
only if the computed status differs from the stored status — independently
of whether the transition algorithm returned an error; when it is not
needed or succeeds, the new status is persisted on change and the
invocation returns the decision derived from the new status together with
the transition error. -/
theorem status_persistence (req : NamespacedName) (st st1 : Store) (a a1 : Association)
    (h1 : st.association = ObjState.present a) (h2 : a.paused = false)
    (h3 : handleFinalizer st a = (st1, a1, none)) (h4 : a1.deleted = false) :
    ((reconcile req st).statusUpdateCalls = 1 ↔
      (reconcileInternal st1 a1).status ≠ a1.status) ∧
    ((reconcileInternal st1 a1).status ≠ a1.status → st1.statusUpdateErr = none →
      (reconcile req st).store.association =
        ObjState.present { a1 with status := (reconcileInternal st1 a1).status }) ∧
    ((reconcileInternal st1 a1).status = a1.status ∨ st1.statusUpdateErr = none →
      (reconcile req st).result = resultFromStatus (reconcileInternal st1 a1).status ∧
      (reconcile req st).error = (reconcileInternal st1 a1).error) := by
  by_cases hsc : (reconcileInternal st1 a1).status = a1.status
  · simp [reconcile, getObj, h1, h2, h3, h4, hsc]
  · rcases hse : st1.statusUpdateErr with _ | m
    · have hse' : (reconcileInternal st1 a1).store.statusUpdateErr = none := by
        rw [reconcileInternal_preserves_statusUpdateErr]; exact hse
      simp [reconcile, getObj, h1, h2, h3, h4, hsc, hse']
    · have hse' : (reconcileInternal st1 a1).store.statusUpdateErr = some m := by
        rw [reconcileInternal_preserves_statusUpdateErr]; exact hse
      simp [reconcile, getObj, h1, h2, h3, h4, hsc, hse']

/-- Witness for C5: the healthy world, whose stored status is empty and
whose computed status is `Established`. -/
theorem status_persistence_witness :
    ((reconcile sampleRequest sampleStore).statusUpdateCalls = 1 ↔
      (reconcileInternal sampleStore sampleAssociation).status ≠ sampleAssociation.status) ∧
    ((reconcileInternal sampleStore sampleAssociation).status ≠ sampleAssociation.status →
      sampleStore.statusUpdateErr = none →
      (reconcile sampleRequest sampleStore).store.association =
        ObjState.present
          { sampleAssociation with
              status := (reconcileInternal sampleStore sampleAssociation).status }) ∧
    ((reconcileInternal sampleStore sampleAssociation).status = sampleAssociation.status ∨
        sampleStore.statusUpdateErr = none →
      (reconcile sampleRequest sampleStore).result =
        resultFromStatus (reconcileInternal sampleStore sampleAssociation).status ∧
      (reconcile sampleRequest sampleStore).error =
        (reconcileInternal sampleStore sampleAssociation).error) :=
  status_persistence sampleRequest sampleStore sampleStore sampleAssociation sampleAssociation
    rfl rfl (by decide) rfl

/-- Counterexample for C2: the transition algorithm returns a not-found
error, the status persistence then fails, and the invocation returns only
the persistence error — the transition error neither changed the persisted
status (still the empty initial status) nor reached the caller. -/
theorem reconcile_error_drop_cex :
    (reconcileInternal errorDropStore sampleAssociation).error =
      some (Err.notFound ⟨"ns", "es1-internal-users"⟩) ∧
    (reconcile sampleRequest errorDropStore).error =
      some (Err.other "status-write-refused") ∧
    (reconcile sampleRequest errorDropStore).error ≠
      (reconcileInternal errorDropStore sampleAssociation).error ∧
    (reconcile sampleRequest errorDropStore).store.association =
      ObjState.present sampleAssociation := by
  refine ⟨rfl, rfl, by decide, rfl⟩

/-- C2 (amended): for a live association, every transition error is
returned to the caller — unless the status persistence itself fails, in
which case the persistence error alone is returned and the transition
error is dropped with the status left unpersisted. -/
theorem reconcile_error_propagation (req : NamespacedName) (st st1 : Store)
    (a a1 : Association)
    (h1 : st.association = ObjState.present a) (h2 : a.paused = false)
    (h3 : handleFinalizer st a = (st1, a1, none)) (h4 : a1.deleted = false) :
    ((reconcileInternal st1 a1).status = a1.status →
      (reconcile req st).error = (reconcileInternal st1 a1).error) ∧
    ((reconcileInternal st1 a1).status ≠ a1.status → st1.statusUpdateErr = none →
      (reconcile req st).error = (reconcileInternal st1 a1).error) ∧
    (∀ m, (reconcileInternal st1 a1).status ≠ a1.status → st1.statusUpdateErr = some m →
      (reconcile req st).error = some (Err.other m) ∧
      (reconcile req st).store.association = st1.association) := by
  by_cases hsc : (reconcileInternal st1 a1).status = a1.status
  · simp [reconcile, getObj, h1, h2, h3, h4, hsc]
  · rcases hse : st1.statusUpdateErr with _ | m
    · have hse' : (reconcileInternal st1 a1).store.statusUpdateErr = none := by
        rw [reconcileInternal_preserves_statusUpdateErr]; exact hse
      simp [reconcile, getObj, h1, h2, h3, h4, hsc, hse']
    · have hse' : (reconcileInternal st1 a1).store.statusUpdateErr = some m := by
        rw [reconcileInternal_preserves_statusUpdateErr]; exact hse
      simp [reconcile, getObj, h1, h2, h3, h4, hsc, hse',
            reconcileInternal_preserves_association]

/-- Witness for C2 (amended): the double-failure world. -/
theorem reconcile_error_propagation_witness :
    ((reconcileInternal errorDropStore sampleAssociation).status = sampleAssociation.status →
      (reconcile sampleRequest errorDropStore).error =
        (reconcileInternal errorDropStore sampleAssociation).error) ∧
    ((reconcileInternal errorDropStore sampleAssociation).status ≠ sampleAssociation.status →
      errorDropStore.statusUpdateErr = none →
      (reconcile sampleRequest errorDropStore).error =
        (reconcileInternal errorDropStore sampleAssociation).error) ∧
    (∀ m, (reconcileInternal errorDropStore sampleAssociation).status ≠
        sampleAssociation.status →
      errorDropStore.statusUpdateErr = some m →
      (reconcile sampleRequest errorDropStore).error = some (Err.other m) ∧
      (reconcile sampleRequest errorDropStore).store.association =
        errorDropStore.association) :=
  reconcile_error_propagation sampleRequest errorDropStore errorDropStore
    sampleAssociation sampleAssociation rfl rfl (by decide) rfl

theorem reconcileInternal_again (st st2 : Store) (a b : Association)
    (hk : st.kibanaUpdateErr = none)
    (h1 : st2.es = st.es) (h2 : st2.internalUsersSecret = st.internalUsersSecret)
    (h3 : st2.caCertSecret = st.caCertSecret)
    (h4 : st2.kibana = (reconcileInternal st a).store.kibana)
    (h5 : st2.esWatchAddErr = st.esWatchAddErr)
    (h6 : st2.kbWatchAddErr = st.kbWatchAddErr)
    (h7 : st2.kibanaUpdateErr = st.kibanaUpdateErr) :
    (reconcileInternal st2 b).status = (reconcileInternal st a).status ∧
    (reconcileInternal st2 b).kibanaUpdateCalls = 0 := by
  obtain ⟨assoc, es, ius, ca, kb, esW, kbW, esAE, kbAE, kuE, suE, fwE⟩ := st
  dsimp only at hk h1 h2 h3 h4 h5 h6 h7
  subst hk
  rcases esAE with _ | mE <;> rcases kbAE with _ | mK <;>
    rcases es with esv | _ | em <;> rcases ius with iv | _ | im <;>
    rcases ca with cv | _ | cm <;> rcases kb with kv | _ | km <;>
    (try by_cases hcfg : kv.spec.elasticsearch = expectedConfig esv iv cv) <;>
    simp_all [reconcileInternal, getObj, Err.isNotFound]

theorem reconcile_live_twice (req : NamespacedName) (st : Store) (a : Association)
    (hassoc : st.association = ObjState.present a) (hp : a.paused = false)
    (hd : a.deleted = false) (hm : watchFinalizerName ∈ a.finalizers)
    (hk : st.kibanaUpdateErr = none) (hs : st.statusUpdateErr = none) :
    (reconcile req (reconcile req st).store).newStatus = (reconcile req st).newStatus ∧
    (reconcile req (reconcile req st).store).kibanaUpdateCalls = 0 ∧
    (reconcile req (reconcile req st).store).statusUpdateCalls = 0 := by
  have hfin : handleFinalizer st a = (st, a, none) := by
    simp [handleFinalizer, hd, hm]
  by_cases hsc : (reconcileInternal st a).status = a.status
  · have hrun1 : reconcile req st =
        ⟨resultFromStatus (reconcileInternal st a).status, (reconcileInternal st a).error,
         (reconcileInternal st a).store, some (reconcileInternal st a).status,
         (reconcileInternal st a).kibanaUpdateCalls, 0⟩ := by
      simp [reconcile, getObj, hassoc, hp, hfin, hd, hsc]
    rw [hrun1]
    have hassoc2 : (reconcileInternal st a).store.association = ObjState.present a := by
      rw [reconcileInternal_preserves_association]; exact hassoc
    have hagain := reconcileInternal_again st (reconcileInternal st a).store a a hk
      (reconcileInternal_preserves st a).2.1
      (reconcileInternal_preserves st a).2.2.1
      (reconcileInternal_preserves st a).2.2.2.1
      rfl
      (reconcileInternal_preserves st a).2.2.2.2.1
      (reconcileInternal_preserves st a).2.2.2.2.2.1
      (reconcileInternal_preserves st a).2.2.2.2.2.2.1
    simp [reconcile, getObj, handleFinalizer, hassoc2, hp, hd, hm, hagain.1, hagain.2, hsc]
  · have hsu : (reconcileInternal st a).store.statusUpdateErr = none := by
      rw [reconcileInternal_preserves_statusUpdateErr]; exact hs
    have hrun1 : reconcile req st =
        ⟨resultFromStatus (reconcileInternal st a).status, (reconcileInternal st a).error,
         { (reconcileInternal st a).store with
             association := ObjState.present { a with status := (reconcileInternal st a).status } },
         some (reconcileInternal st a).status,
         (reconcileInternal st a).kibanaUpdateCalls, 1⟩ := by
      simp [reconcile, getObj, hassoc, hp, hfin, hd, hsc, hsu]
    rw [hrun1]
    have hagain := reconcileInternal_again st
      { (reconcileInternal st a).store with
          association := ObjState.present { a with status := (reconcileInternal st a).status } }
      a { a with status := (reconcileInternal st a).status } hk
      (reconcileInternal_preserves st a).2.1
      (reconcileInternal_preserves st a).2.2.1
      (reconcileInternal_preserves st a).2.2.2.1
      rfl
      (reconcileInternal_preserves st a).2.2.2.2.1
      (reconcileInternal_preserves st a).2.2.2.2.2.1
      (reconcileInternal_preserves st a).2.2.2.2.2.2.1
    simp only [hp, hd] at hagain
    simp [reconcile, getObj, handleFinalizer, hp, hd, hm, hagain.1, hagain.2]

theorem reconcile_registers_finalizer (req : NamespacedName) (st : Store) (a : Association)
    (hassoc : st.association = ObjState.present a) (hp : a.paused = false)
    (hd : a.deleted = false) (hm : watchFinalizerName ∉ a.finalizers)
    (hfw : st.finalizerWriteErr = none) :
    reconcile req st =
      reconcile req
        { st with association :=
            ObjState.present { a with finalizers := watchFinalizerName :: a.finalizers } } := by
  simp [reconcile, getObj, hassoc, hp, handleFinalizer, hd, hm, hfw]

/-- C3 (amended): provided the consumer update and the status persistence
succeed when attempted, reconciling twice in succession with no external
change yields the same computed status both times and the second invocation
issues zero writes — no consumer update call and no status persistence
call. -/
theorem reconcile_idempotent (req : NamespacedName) (st : Store)
    (hk : st.kibanaUpdateErr = none) (hs : st.statusUpdateErr = none) :
    (reconcile req (reconcile req st).store).newStatus = (reconcile req st).newStatus ∧
    (reconcile req (reconcile req st).store).kibanaUpdateCalls = 0 ∧
    (reconcile req (reconcile req st).store).statusUpdateCalls = 0 := by
  rcases hassoc : st.association with a | _ | m
  · cases hp : a.paused
    · cases hd : a.deleted
      · by_cases hm : watchFinalizerName ∈ a.finalizers
        · exact reconcile_live_twice req st a hassoc hp hd hm hk hs
        · rcases hfw : st.finalizerWriteErr with _ | m
          · rw [reconcile_registers_finalizer req st a hassoc hp hd hm hfw]
            exact reconcile_live_twice req
              { st with association :=
                  ObjState.present { a with finalizers := watchFinalizerName :: a.finalizers } }
              { a with finalizers := watchFinalizerName :: a.finalizers }
              rfl hp hd (List.mem_cons_self _ _) hk hs
          · have h1 : reconcile req st =
                ⟨defaultRequeue, some (Err.other m), st, none, 0, 0⟩ := by
              simp [reconcile, getObj, hassoc, hp, handleFinalizer, hd, hm, hfw]
            rw [h1]
            simp [h1]
      · by_cases hm : watchFinalizerName ∈ a.finalizers
        · rcases hfw : st.finalizerWriteErr with _ | m
          · have hnm : watchFinalizerName ∉
                a.finalizers.filter (fun n => n != watchFinalizerName) := by
              simp [List.mem_filter]
            have hfw2 : (watchFinalizerExecute (assocKey a) st).finalizerWriteErr = none := hfw
            simp [reconcile, getObj, hassoc, hp, handleFinalizer, hd, hm, hfw,
                  watchFinalizerExecute, hnm]
          · have hfw2 : (watchFinalizerExecute (assocKey a) st).finalizerWriteErr = some m := hfw
            simp [reconcile, getObj, hassoc, hp, handleFinalizer, hd, hm, hfw,
                  watchFinalizerExecute]
        · simp [reconcile, getObj, hassoc, hp, handleFinalizer, hd, hm]
    · simp [reconcile, getObj, hassoc, hp]
  · simp [reconcile, getObj, hassoc, Err.isNotFound]
  · simp [reconcile, getObj, hassoc, Err.isNotFound]

/-- Counterexample for C3: in the double-failure world (transition error
and deterministically failing status write) the second reconcile issues a
status persistence call again — one write, not zero — although no external
change happened between the two invocations. -/
theorem reconcile_idempotent_cex :
    (reconcile sampleRequest errorDropStore).statusUpdateCalls = 1 ∧
    (reconcile sampleRequest
        (reconcile sampleRequest errorDropStore).store).statusUpdateCalls = 1 ∧
    (reconcile sampleRequest
        (reconcile sampleRequest errorDropStore).store).statusUpdateCalls ≠ 0 := by
  refine ⟨rfl, rfl, by decide⟩

/-- Witness for C3 (amended): the healthy world, reconciled twice. -/
theorem reconcile_idempotent_witness :
    (reconcile sampleRequest (reconcile sampleRequest sampleStore).store).newStatus =
      (reconcile sampleRequest sampleStore).newStatus ∧
    (reconcile sampleRequest (reconcile sampleRequest sampleStore).store).kibanaUpdateCalls = 0 ∧
    (reconcile sampleRequest (reconcile sampleRequest sampleStore).store).statusUpdateCalls = 0 :=
  reconcile_idempotent sampleRequest sampleStore rfl rfl
